import Mathlib

/-!
# go-config-center: HTTP service handlers and node bootstrap

A shallow embedding of `internal/service/service.go` and `cmd/main.go`.

* Handlers are functions from a request and a store state to the list of
  observable events (store calls with what they returned, responses written)
  and the new store state.
* The store (`internal/store`), the JSON codec (`encoding/json`),
  `strings.ToLower` and the operating system are collaborators whose code is
  not part of the two embedded files; they enter as parameters.
* `jsonCodec` is one such codec, after the documented behaviour of
  `encoding/json` on strings that are not valid UTF-8.
-/

namespace ConfigCenter

/-! ## Data model -/

/-- Go `error` values as the handlers observe them: the sentinel
`store.ErrNotLeader`, recognised by `err == store.ErrNotLeader`, and every
other error value, which carries the text of its `Error()` method. -/
inductive Error where
  | ErrNotLeader
  | other (msg : String)
  deriving DecidableEq, Repr

/-- Modelled from the spec: the type `store.ConsistencyLevel` and its three
constants are declared in package `store`; the spec enumerates them as
`{Default, Stale, Consistent}`. -/
inductive ConsistencyLevel where
  | Default
  | Stale
  | Consistent
  deriving DecidableEq, Repr

/-- A Go `map[string]string`: its entries, listed in the order a `range`
loop visits them, with pairwise different keys. -/
structure GoMap where
  entries : List (String × String)
  nodup : (entries.map Prod.fst).Nodup

/-- Go `len(m)`. -/
def GoMap.len (m : GoMap) : Nat := m.entries.length

/-- Go `v, ok := m[k]`: `some v` when the key is present. -/
def GoMap.get (m : GoMap) (k : String) : Option String := m.entries.lookup k

/-- The JSON library as used by the two files: `json.Marshal` on a string
map and `json.NewDecoder(body).Decode(&m)` into an empty string map. -/
structure Codec (β : Type) where
  Marshal : GoMap → Except Error β
  Decode : β → Except Error GoMap

/-- The part of `*gin.Context` the handlers read. -/
structure Request (β : Type) where
  /-- Field `c.Request.URL.Path`. -/
  Path : String
  /-- Field `c.Request.URL.RawQuery`. -/
  RawQuery : String
  /-- Value of `c.Param("key")`. -/
  key : String
  /-- Value of `c.Query("level")`, empty when the parameter is absent. -/
  level : String
  /-- Field `c.Request.Body`. -/
  Body : β

/-- A response written through the gin context. -/
inductive Response where
  /-- Call `c.String(code, body)`. -/
  | text (code : Nat) (body : String)
  /-- Call `c.JSON(code, gin.H{...})` with the object's members. -/
  | json (code : Nat) (obj : List (String × String))
  /-- Call `c.Redirect(code, location)`. -/
  | redirect (code : Nat) (location : String)
  deriving DecidableEq, Repr

def StatusOK : Nat := 200
def StatusTemporaryRedirect : Nat := 307
def StatusBadRequest : Nat := 400
def StatusInternalServerError : Nat := 500
def StatusServiceUnavailable : Nat := 503

/-- The status code of a response. -/
def Response.code : Response → Nat
  | .text c _ => c
  | .json c _ => c
  | .redirect c _ => c

/-- What a handler does that is visible from outside: each store call with
the values it returned, and each response it writes. -/
inductive Event where
  | Get (key : String) (lvl : ConsistencyLevel) (v : String) (err : Option Error)
  | Set (key value : String) (err : Option Error)
  | Delete (key : String) (err : Option Error)
  | Join (nodeID httpAddr addr : String) (err : Option Error)
  | LeaderAPIAddr (leader : String)
  | respond (r : Response)
  deriving DecidableEq, Repr

/-- The store behind the service, over its state `σ`. Each method returns its
Go results together with the state it leaves. `ErrNotLeaderText` is the text
of `store.ErrNotLeader.Error()`. -/
structure Store (σ : Type) where
  Get : String → ConsistencyLevel → σ → (String × Option Error) × σ
  Set : String → String → σ → Option Error × σ
  Delete : String → σ → Option Error × σ
  Join : String → String → String → σ → Option Error × σ
  LeaderAPIAddr : σ → String × σ
  SetMeta : String → String → σ → Option Error × σ
  Open : Bool → String → σ → Option Error × σ
  WaitForLeader : Nat → σ → σ
  WaitForApplied : Nat → σ → σ
  ErrNotLeaderText : String

/-- Go `err.Error()`. -/
def Store.errText {σ : Type} (st : Store σ) : Error → String
  | .ErrNotLeader => st.ErrNotLeaderText
  | .other msg => msg

/-! ## internal/service/service.go -/

section Service

variable {σ β : Type}

/-- `resolveLevel`, with `strings.ToLower` as `toLower`. -/
def resolveLevel (toLower : String → String) (lvl : String) :
    ConsistencyLevel × Option Error :=
  let l := toLower lvl
  if l = "default" then (ConsistencyLevel.Default, none)
  else if l = "stale" then (ConsistencyLevel.Stale, none)
  else if l = "consistent" then (ConsistencyLevel.Consistent, none)
  else (ConsistencyLevel.Default, none)

/-- `Service.FormRedirect`: the `Location` value for a redirect to `host`. -/
def FormRedirect (c : Request β) (host : String) : String :=
  let protocol := "http"
  let rq := c.RawQuery
  let rq := if rq ≠ "" then "?" ++ rq else rq
  protocol ++ "://" ++ host ++ c.Path ++ rq

/-- `Service.handleKeyGet`. -/
def handleKeyGet (st : Store σ) (toLower : String → String) (c : Request β) (s : σ) :
    List Event × σ :=
  let key := c.key
  if key = "" then
    ([Event.respond (.text StatusBadRequest "bad request")], s)
  else
    let level := c.level
    let rl := resolveLevel toLower level
    let lvl := rl.1
    -- `if err != nil { c.String(400, ...) }` has no `return`
    let w : List Event :=
      if rl.2 ≠ none then [Event.respond (.text StatusBadRequest "bad request")] else []
    let g := st.Get key lvl s
    let v := g.1.1
    let t := w ++ [Event.Get key lvl v g.1.2]
    match g.1.2 with
    | some err =>
      if err = Error.ErrNotLeader then
        let l := st.LeaderAPIAddr g.2
        let leader := l.1
        if leader = "" then
          (t ++ [Event.LeaderAPIAddr leader,
                 Event.respond (.text StatusServiceUnavailable (st.errText err))], l.2)
        else
          let redirect := FormRedirect c leader
          (t ++ [Event.LeaderAPIAddr leader,
                 Event.respond (.redirect StatusTemporaryRedirect redirect)], l.2)
      else
        (t ++ [Event.respond (.text StatusInternalServerError (st.errText err))], g.2)
    | none =>
      (t ++ [Event.respond (.json StatusOK [(key, v)])], g.2)

/-- `Service.handleKeyDelete`. -/
def handleKeyDelete (st : Store σ) (c : Request β) (s : σ) : List Event × σ :=
  let key := c.key
  if key = "" then
    ([Event.respond (.text StatusBadRequest "bad request")], s)
  else
    let d := st.Delete key s
    let t := [Event.Delete key d.1]
    match d.1 with
    | some err =>
      if err = Error.ErrNotLeader then
        let l := st.LeaderAPIAddr d.2
        let leader := l.1
        if leader = "" then
          (t ++ [Event.LeaderAPIAddr leader,
                 Event.respond (.text StatusServiceUnavailable (st.errText err))], l.2)
        else
          let redirect := FormRedirect c leader
          (t ++ [Event.LeaderAPIAddr leader,
                 Event.respond (.redirect StatusTemporaryRedirect redirect)], l.2)
      else
        (t ++ [Event.respond (.text StatusInternalServerError (st.errText err))], d.2)
    | none =>
      (t ++ [Event.respond (.text StatusOK ("Key: " ++ key ++ " is deleted "))], d.2)

/-- The `for k, v := range m` loop of `handleKeyPost` over the entries still
to visit. The third component tells whether the handler returned from inside
the loop. -/
def handleKeyPost.loop (st : Store σ) (c : Request β) :
    List (String × String) → σ → List Event × σ × Bool
  | [], s => ([], s, false)
  | (k, v) :: rest, s =>
    let r := st.Set k v s
    match r.1 with
    | some err =>
      if err = Error.ErrNotLeader then
        let l := st.LeaderAPIAddr r.2
        let leader := l.1
        if leader = "" then
          ([Event.Set k v r.1, Event.LeaderAPIAddr leader,
            Event.respond (.text StatusServiceUnavailable (st.errText err))], l.2, true)
        else
          let redirect := FormRedirect c leader
          ([Event.Set k v r.1, Event.LeaderAPIAddr leader,
            Event.respond (.redirect StatusTemporaryRedirect redirect)], l.2, true)
      else
        ([Event.Set k v r.1,
          Event.respond (.text StatusInternalServerError (st.errText err))], r.2, true)
    | none =>
      let q := handleKeyPost.loop st c rest r.2
      (Event.Set k v r.1 :: q.1, q.2.1, q.2.2)

/-- `Service.handleKeyPost`. -/
def handleKeyPost (st : Store σ) (codec : Codec β) (c : Request β) (s : σ) :
    List Event × σ :=
  match codec.Decode c.Body with
  | .error _ => ([Event.respond (.text StatusBadRequest "bad request")], s)
  | .ok m =>
    let q := handleKeyPost.loop st c m.entries s
    if q.2.2 then (q.1, q.2.1)
    else (q.1 ++ [Event.respond (.text StatusOK "Set data success")], q.2.1)

/-- `Service.handleJoin`. -/
def handleJoin (st : Store σ) (codec : Codec β) (c : Request β) (s : σ) :
    List Event × σ :=
  match codec.Decode c.Body with
  | .error _ => ([Event.respond (.text StatusBadRequest "bad request")], s)
  | .ok m =>
    if m.len ≠ 3 then ([Event.respond (.text StatusBadRequest "bad request")], s)
    else
      match m.get "httpAddr" with
      | none => ([Event.respond (.text StatusBadRequest "bad request")], s)
      | some httpAddr =>
        match m.get "raftAddr" with
        | none => ([Event.respond (.text StatusBadRequest "bad request")], s)
        | some raftAddr =>
          match m.get "id" with
          | none => ([Event.respond (.text StatusBadRequest "bad request")], s)
          | some nodeID =>
            let j := st.Join nodeID httpAddr raftAddr s
            let t := [Event.Join nodeID httpAddr raftAddr j.1]
            match j.1 with
            | some err =>
              if err = Error.ErrNotLeader then
                let l := st.LeaderAPIAddr j.2
                let leader := l.1
                if leader = "" then
                  (t ++ [Event.LeaderAPIAddr leader,
                         Event.respond (.text StatusServiceUnavailable (st.errText err))], l.2)
                else
                  let redirect := FormRedirect c leader
                  (t ++ [Event.LeaderAPIAddr leader,
                         Event.respond (.redirect StatusTemporaryRedirect redirect)], l.2)
              else
                (t ++ [Event.respond (.text StatusInternalServerError "system error")], j.2)
            | none => (t, j.2)

end Service

/-! ## cmd/main.go -/

section Main

variable {σ β : Type}

/-- The command line parameters, after `flag.Parse()`. -/
structure Flags where
  httpAddr : String
  raftAddr : String
  raftDataDir : String
  joinAddr : String
  nodeID : String

/-- The operating system, the network and the HTTP server as `main` uses
them, over the same state `σ` as the store. -/
structure Host (σ β : Type) where
  /-- Function `homedir.Expand`. -/
  Expand : String → Except Error String
  /-- Function `os.MkdirAll`. -/
  MkdirAll : String → Nat → σ → Option Error × σ
  /-- Function `http.Post(url, contentType, body)`; only its error is used. -/
  Post : String → String → β → σ → Option Error × σ
  /-- Method `Start` of the service made by `service.New(addr, s)`. -/
  Start : String → σ → Option Error × σ

/-- What the process does that is visible from outside while it starts. -/
inductive BootEvent (β : Type) where
  | stderr (msg : String)
  | exit (code : Nat)
  | MkdirAll (path : String) (perm : Nat) (err : Option Error)
  | storeNew (raftAddr raftDir : String)
  | Open (enableSingle : Bool) (localID : String) (err : Option Error)
  | Post (url contentType : String) (body : β) (err : Option Error)
  | WaitForLeader (timeout : Nat)
  | WaitForApplied (timeout : Nat)
  | SetMeta (key value : String) (err : Option Error)
  | log (msg : String)
  | serviceNew (addr : String)
  | serviceStart (err : Option Error)
  deriving DecidableEq, Repr

/-- Go `time.Second`, in nanoseconds. -/
def Second : Nat := 1000000000

/-- The map literal
`map[string]string{"httpAddr": httpAddr, "raftAddr": raftAddr, "id": nodeID}`. -/
def joinMap (httpAddr raftAddr nodeID : String) : GoMap where
  entries := [("httpAddr", httpAddr), ("raftAddr", raftAddr), ("id", nodeID)]
  nodup := by simp

/-- `join`: post this node's addresses and ID to the member at `joinAddr`. -/
def join (host : Host σ β) (codec : Codec β) (joinAddr httpAddr raftAddr nodeID : String)
    (s : σ) : List (BootEvent β) × Option Error × σ :=
  match codec.Marshal (joinMap httpAddr raftAddr nodeID) with
  | .error err => ([], some err, s)
  | .ok b =>
    let p := host.Post ("http://" ++ joinAddr ++ "/join") "application-type/json" b s
    let t := [BootEvent.Post ("http://" ++ joinAddr ++ "/join") "application-type/json" b p.1]
    match p.1 with
    | some err => (t, some err, p.2)
    | none => (t, none, p.2)

/-- `resolveParam`. The second component tells whether the process exited.
The expanded directory is a local variable of the function. -/
def resolveParam (host : Host σ β) (f : Flags) (s : σ) : List (BootEvent β) × Bool × σ :=
  match host.Expand f.raftDataDir with
  | .error _ =>
    ([BootEvent.stderr "Illegal Raft storage directory failed\n", BootEvent.exit 1], true, s)
  | .ok raftDataDir =>
    let d := host.MkdirAll raftDataDir 0o700 s
    match d.1 with
    | some _ =>
      ([BootEvent.MkdirAll raftDataDir 0o700 d.1,
        BootEvent.stderr "Create Raft storage directory failed\n", BootEvent.exit 1], true, d.2)
    | none => ([BootEvent.MkdirAll raftDataDir 0o700 d.1], false, d.2)

/-- `initRaft`: the events, the error it returns and the state it leaves. -/
def initRaft (st : Store σ) (host : Host σ β) (codec : Codec β) (f : Flags) (s : σ) :
    List (BootEvent β) × Option Error × σ :=
  let o := st.Open (decide (f.joinAddr = "")) f.nodeID s
  let t₀ := [BootEvent.Open (decide (f.joinAddr = "")) f.nodeID o.1]
  match o.1 with
  | some err =>
    (t₀ ++ [BootEvent.log ("failed to open store: " ++ st.errText err)], some err, o.2)
  | none =>
    -- if join was specified, make the join request
    let j : List (BootEvent β) × Option Error × σ :=
      if f.joinAddr ≠ "" then join host codec f.joinAddr f.httpAddr f.raftAddr f.nodeID o.2
      else ([BootEvent.log "no join addresses set"], none, o.2)
    match j.2.1 with
    | some err =>
      (t₀ ++ j.1 ++ [BootEvent.log ("failed to join node at " ++ f.joinAddr ++ ": "
        ++ st.errText err)], none, j.2.2)
    | none =>
      let openTimeout := 120 * Second
      let s₁ := st.WaitForLeader openTimeout j.2.2
      let s₂ := st.WaitForApplied openTimeout s₁
      let m := st.SetMeta f.nodeID f.httpAddr s₂
      let t₁ := t₀ ++ j.1 ++ [BootEvent.WaitForLeader openTimeout,
        BootEvent.WaitForApplied openTimeout, BootEvent.SetMeta f.nodeID f.httpAddr m.1]
      match m.1 with
      | some err =>
        if err ≠ Error.ErrNotLeader then
          (t₁ ++ [BootEvent.log ("failed to SetMeta at " ++ f.nodeID ++ ": "
            ++ st.errText err)], some err, m.2)
        else (t₁, none, m.2)
      | none => (t₁, none, m.2)

/-- `main`, from the parsed flags on. The value `initRaft` returns is not
looked at. -/
def main (st : Store σ) (host : Host σ β) (codec : Codec β) (f : Flags) (s : σ) :
    List (BootEvent β) × σ :=
  let r := resolveParam host f s
  if r.2.1 then (r.1, r.2.2)
  else
    let t₀ := r.1 ++ [BootEvent.storeNew f.raftAddr f.raftDataDir]
    let i := initRaft st host codec f r.2.2
    let h := host.Start f.httpAddr i.2.2
    (t₀ ++ i.1 ++ [BootEvent.serviceNew f.httpAddr, BootEvent.serviceStart h.1], h.2)

end Main

/-! ## Observations on traces -/

section Observations

variable {σ β : Type}

/-- The responses written in a trace, in order. -/
def responses (t : List Event) : List Response :=
  t.filterMap fun e => match e with
    | .respond r => some r
    | _ => none

/-- The calls of `Get`, `Set`, `Delete` and `Join` in a trace, in order. -/
def storeCalls (t : List Event) : List Event :=
  t.filter fun e => match e with
    | .Get _ _ _ _ => true
    | .Set _ _ _ => true
    | .Delete _ _ => true
    | .Join _ _ _ _ => true
    | _ => false

/-- The non-nil errors that `Get`, `Set`, `Delete` and `Join` returned in a
trace, in order. -/
def storeErrors (t : List Event) : List Error :=
  t.filterMap fun e => match e with
    | .Get _ _ _ err => err
    | .Set _ _ err => err
    | .Delete _ err => err
    | .Join _ _ _ err => err
    | _ => none

/-- The addresses that the calls of `LeaderAPIAddr` returned in a trace. -/
def leaderCalls (t : List Event) : List String :=
  t.filterMap fun e => match e with
    | .LeaderAPIAddr l => some l
    | _ => none

/-- The answer to `ErrNotLeader` once the leader address is known: 503 with
the error text when the address is empty, otherwise a 307 redirect to
`FormRedirect c leader`. Used to state the theorems. -/
def notLeaderResponse (st : Store σ) (c : Request β) (leader : String) : Response :=
  if leader = "" then .text StatusServiceUnavailable (st.errText Error.ErrNotLeader)
  else .redirect StatusTemporaryRedirect (FormRedirect c leader)

/-- What follows a store call that returned the error `e`, with the store
left in state `s`: for `ErrNotLeader` the leader lookup and the answer to it,
for any other error a 500 with the error text. Used to state the lemmas on
`handleKeyPost`. -/
def errorTail (st : Store σ) (c : Request β) (e : Error) (s : σ) : List Event :=
  if e = Error.ErrNotLeader then
    [Event.LeaderAPIAddr (st.LeaderAPIAddr s).1,
     Event.respond (notLeaderResponse st c (st.LeaderAPIAddr s).1)]
  else [Event.respond (.text StatusInternalServerError (st.errText e))]

/-- The event of a `Set` call on the pair `p` that returned nil. -/
def setOk (p : String × String) : Event := Event.Set p.1 p.2 none

/-- The keys of a map. -/
def GoMap.keys (m : GoMap) : List String := m.entries.map Prod.fst

end Observations

/-! ## Sample collaborators -/

/-- A store over a call counter where `Open` succeeds, every other operation
on the key (or node ID) `failKey` returns `err` and the rest succeeds; the
leader address is `leader`. -/
def sampleStore (failKey : String) (err : Error) (leader : String) : Store Nat where
  Get := fun k _ n => if k = failKey then (("", some err), n + 1) else (("1", none), n + 1)
  Set := fun k _ n => if k = failKey then (some err, n + 1) else (none, n + 1)
  Delete := fun k n => if k = failKey then (some err, n + 1) else (none, n + 1)
  Join := fun id _ _ n => if id = failKey then (some err, n + 1) else (none, n + 1)
  LeaderAPIAddr := fun n => (leader, n)
  SetMeta := fun k _ n => if k = failKey then (some err, n + 1) else (none, n + 1)
  Open := fun _ _ n => (none, n + 1)
  WaitForLeader := fun _ n => n
  WaitForApplied := fun _ n => n
  ErrNotLeaderText := "not leader"

/-- A codec whose wire form is the list of members: decoding fails on a
repeated key. -/
def sampleCodec : Codec (List (String × String)) where
  Marshal := fun m => .ok m.entries
  Decode := fun b =>
    if h : (b.map Prod.fst).Nodup then .ok ⟨b, h⟩ else .error (Error.other "invalid")

/-- A host on which every call succeeds. -/
def sampleHost : Host Nat (List (String × String)) where
  Expand := fun d => .ok d
  MkdirAll := fun _ _ n => (none, n)
  Post := fun _ _ _ n => (none, n)
  Start := fun _ n => (none, n)

/-- ASCII lower-casing, standing in for `strings.ToLower` on samples. -/
def sampleToLower (s : String) : String := ⟨s.data.map Char.toLower⟩

/-- A request for `/key/a?level=stale`. -/
def sampleGet : Request (List (String × String)) :=
  { Path := "/key/a", RawQuery := "level=stale", key := "a", level := "stale", Body := [] }

/-- A request for `/key/a` without a query. -/
def sampleDelete : Request (List (String × String)) :=
  { Path := "/key/a", RawQuery := "", key := "a", level := "", Body := [] }

/-- The members `{id: a, httpAddr: h, raftAddr: r}` of a join request. -/
def sampleJoinBody : List (String × String) := [("id", "a"), ("httpAddr", "h"), ("raftAddr", "r")]

/-- The map that `sampleJoinBody` decodes to. -/
def sampleJoinMap : GoMap := ⟨sampleJoinBody, by simp [sampleJoinBody]⟩

/-- The map `{a: 1, b: 2, c: 3}`, visited in this order. -/
def samplePostMap : GoMap := ⟨[("a", "1"), ("b", "2"), ("c", "3")], by simp⟩

/-- Flags of a node `n1` that starts a cluster of its own. -/
def sampleFlags : Flags :=
  { httpAddr := "localhost:8080", raftAddr := "localhost:9000",
    raftDataDir := "~/data/go-config-center", joinAddr := "", nodeID := "n1" }

/-- Flags of a node `n2` that joins the member at `localhost:8080`. -/
def sampleJoinFlags : Flags :=
  { httpAddr := "localhost:8081", raftAddr := "localhost:9001",
    raftDataDir := "~/data/n2", joinAddr := "localhost:8080", nodeID := "n2" }

/-- A store whose `Open` fails. -/
def brokenDisk : Store Nat :=
  { sampleStore "" Error.ErrNotLeader "" with
    Open := fun _ _ n => (some (Error.other "disk failure"), n) }

/-- A follower that knows its leader: operations on `a` return `ErrNotLeader`. -/
def follower : Store Nat := sampleStore "a" Error.ErrNotLeader "10.0.0.2:8080"

/-- A follower without a known leader: operations on `b` return `ErrNotLeader`. -/
def orphan : Store Nat := sampleStore "b" Error.ErrNotLeader ""

/-- A node whose operations on `b` time out. -/
def slow : Store Nat := sampleStore "b" (Error.other "timeout") "10.0.0.2:8080"

/-- A `POST /key` request with the given members. -/
def samplePost (b : List (String × String)) : Request (List (String × String)) :=
  { Path := "/key", RawQuery := "", key := "", level := "", Body := b }

/-- A `POST /join` request with the given members. -/
def sampleJoin (b : List (String × String)) : Request (List (String × String)) :=
  { Path := "/join", RawQuery := "", key := "", level := "", Body := b }

/-! ## encoding/json on string maps

Go strings are byte sequences. A Go string is written here as the `String`
whose characters have the bytes as their codes, so `"n\xff2"` is the three
bytes `6e ff 32`; on ASCII text this is the text itself.
-/

/-- The bytes of a Go string. -/
def bytes (s : String) : List Nat := s.data.map Char.toNat

/-- Whether `b` is a UTF-8 continuation byte, `80` to `bf`. -/
def isCont (b : Nat) : Bool := 0x80 ≤ b && b ≤ 0xBF

/-- Go `utf8.DecodeRune` as the JSON encoder uses it: the length of the
well-formed UTF-8 sequence at the head of the bytes, or 0 when the first
byte starts none (Go reports `RuneError` with size 1). -/
def utf8Size : List Nat → Nat
  | [] => 0
  | b0 :: rest =>
    if b0 < 0x80 then 1
    else if 0xC2 ≤ b0 ∧ b0 ≤ 0xDF then
      match rest with
      | b1 :: _ => if isCont b1 then 2 else 0
      | _ => 0
    else if 0xE0 ≤ b0 ∧ b0 ≤ 0xEF then
      match rest with
      | b1 :: b2 :: _ =>
        if (if b0 = 0xE0 then 0xA0 else 0x80) ≤ b1 ∧
            b1 ≤ (if b0 = 0xED then 0x9F else 0xBF) ∧ isCont b2 then 3
        else 0
      | _ => 0
    else if 0xF0 ≤ b0 ∧ b0 ≤ 0xF4 then
      match rest with
      | b1 :: b2 :: b3 :: _ =>
        if (if b0 = 0xF0 then 0x90 else 0x80) ≤ b1 ∧
            b1 ≤ (if b0 = 0xF4 then 0x8F else 0xBF) ∧ isCont b2 ∧ isCont b3 then 4
        else 0
      | _ => 0
    else 0

/-- The bytes coerced to valid UTF-8: every byte that starts no well-formed
sequence becomes `ef bf bd`, the encoding of U+FFFD. The first argument
counts the bytes still to copy of a sequence already found well-formed. -/
def coerceBytes : Nat → List Nat → List Nat
  | _, [] => []
  | k + 1, b :: rest => b :: coerceBytes k rest
  | 0, b :: rest =>
    match utf8Size (b :: rest) with
    | 0 => 0xEF :: 0xBF :: 0xBD :: coerceBytes 0 rest
    | n + 1 => b :: coerceBytes n rest

/-- A string as it comes out of a JSON round trip. The documentation of
`json.Marshal` has it: "String values encode as JSON strings coerced to valid
UTF-8, replacing invalid bytes with the Unicode replacement rune." -/
def toValidUTF8 (s : String) : String :=
  ⟨(coerceBytes 0 (bytes s)).map Char.ofNat⟩

/-- Byte-wise order of two strings, as Go compares map keys when it sorts
them. -/
def bytesLE : List Nat → List Nat → Bool
  | [], _ => true
  | _ :: _, [] => false
  | a :: as, b :: bs => a < b || (a == b && bytesLE as bs)

/-- The empty map. -/
def GoMap.empty : GoMap := ⟨[], List.nodup_nil⟩

/-- Go `m[k] = v`. -/
def GoMap.set (m : GoMap) (k v : String) : GoMap where
  entries := (k, v) :: m.entries.filter fun p => p.1 ≠ k
  nodup := by
    rw [List.map_cons, List.nodup_cons]
    constructor
    · simp [List.mem_map, List.mem_filter]
    · exact (m.nodup.sublist ((List.filter_sublist _).map _))

/-- A model of `encoding/json` on `map[string]string`. The JSON text is
held as the list of its members. `Marshal` writes the members in the order
of their keys, keys and values coerced to valid UTF-8; `Decode` stores the
members one after the other, so the last of two equal keys stays. -/
def jsonCodec : Codec (List (String × String)) where
  Marshal := fun m =>
    .ok ((m.entries.insertionSort fun p q => bytesLE (bytes p.1) (bytes q.1) = true).map
      fun p => (toValidUTF8 p.1, toValidUTF8 p.2))
  Decode := fun b =>
    .ok (b.foldl (fun m p => m.set (toValidUTF8 p.1) (toValidUTF8 p.2)) GoMap.empty)

/-- The JSON members that node `n2` posts when it joins. -/
def sampleWire : List (String × String) :=
  [("httpAddr", "localhost:8081"), ("id", "n2"), ("raftAddr", "localhost:9001")]

/-- The map that `sampleWire` decodes to. -/
def sampleWireMap : GoMap :=
  ⟨[("raftAddr", "localhost:9001"), ("id", "n2"), ("httpAddr", "localhost:8081")], by simp⟩

/-- The JSON members posted by a node whose ID is the bytes `6e ff 32`: the
byte `ff` has become `ef bf bd`. -/
def coercedWire : List (String × String) :=
  [("httpAddr", "localhost:8081"), ("id", "n\xef\xbf\xbd2"), ("raftAddr", "localhost:9001")]

/-! ## Theorems -/

section Theorems

variable {σ β : Type}

/-! ### Lemmas on lists and on the `handleKeyPost` loop -/

/-- A list has at most one way to be split around an element satisfying `p`
when nothing before or after it satisfies `p`. -/
theorem split_unique {α : Type} (p : α → Prop) :
    ∀ (l₁ l₂ r₁ r₂ : List α) (a b : α), l₁ ++ a :: r₁ = l₂ ++ b :: r₂ → p a →
      (∀ x ∈ l₂, ¬ p x) → (∀ x ∈ r₂, ¬ p x) → l₁ = l₂ ∧ a = b ∧ r₁ = r₂ := by
  intro l₁
  induction l₁ with
  | nil =>
    intro l₂ r₁ r₂ a b h ha hl hr
    cases l₂ with
    | nil =>
      simp only [List.nil_append, List.cons.injEq] at h
      exact ⟨rfl, h.1, h.2⟩
    | cons x l₂ =>
      simp only [List.nil_append, List.cons_append, List.cons.injEq] at h
      exact absurd (h.1 ▸ ha) (hl x (List.mem_cons_self _ _))
  | cons y l₁ ih =>
    intro l₂ r₁ r₂ a b h ha hl hr
    cases l₂ with
    | nil =>
      simp only [List.nil_append, List.cons_append, List.cons.injEq] at h
      have : a ∈ r₂ := by rw [← h.2]; simp
      exact absurd ha (hr a this)
    | cons x l₂ =>
      simp only [List.cons_append, List.cons.injEq] at h
      obtain ⟨h₁, h₂, h₃⟩ := ih l₂ r₁ r₂ a b h.2 ha
        (fun z hz => hl z (List.mem_cons_of_mem _ hz)) hr
      exact ⟨by rw [h.1, h₁], h₂, h₃⟩

/-- The loop either visits every pair with success and does not return, or
stops at the first pair whose `Set` fails and answers the error. -/
theorem loop_spec (st : Store σ) (c : Request β) :
    ∀ (pairs : List (String × String)) (s : σ),
      ((handleKeyPost.loop st c pairs s).2.2 = false ∧
        (handleKeyPost.loop st c pairs s).1 = pairs.map setOk) ∨
      ((handleKeyPost.loop st c pairs s).2.2 = true ∧
        ∃ pre k v post e s', pairs = pre ++ (k, v) :: post ∧
          (handleKeyPost.loop st c pairs s).1 =
            pre.map setOk ++ Event.Set k v (some e) :: errorTail st c e s') := by
  intro pairs
  induction pairs with
  | nil => intro s; left; simp [handleKeyPost.loop]
  | cons p rest ih =>
    intro s
    obtain ⟨k, v⟩ := p
    cases h : (st.Set k v s).1 with
    | none =>
      rcases ih (st.Set k v s).2 with ⟨h₁, h₂⟩ | ⟨h₁, pre, k', v', post, e, s', h₂, h₃⟩
      · left
        simp [handleKeyPost.loop, h, h₁, h₂, setOk]
      · right
        refine ⟨by simp [handleKeyPost.loop, h, h₁], (k, v) :: pre, k', v', post, e, s', ?_, ?_⟩
        · simp [h₂]
        · simp [handleKeyPost.loop, h, h₃, setOk]
    | some e =>
      right
      by_cases he : e = Error.ErrNotLeader
      · by_cases hl : (st.LeaderAPIAddr (st.Set k v s).2).1 = ""
        · refine ⟨by simp [handleKeyPost.loop, h, he, hl], [], k, v, rest, e,
            (st.Set k v s).2, rfl, ?_⟩
          simp [handleKeyPost.loop, h, he, hl, errorTail, notLeaderResponse]
        · refine ⟨by simp [handleKeyPost.loop, h, he, hl], [], k, v, rest, e,
            (st.Set k v s).2, rfl, ?_⟩
          simp [handleKeyPost.loop, h, he, hl, errorTail, notLeaderResponse]
      · refine ⟨by simp [handleKeyPost.loop, h, he], [], k, v, rest, e,
          (st.Set k v s).2, rfl, ?_⟩
        simp [handleKeyPost.loop, h, he, errorTail]

/-- Successful `Set` calls carry no response. -/
theorem responses_setOk (l : List (String × String)) : responses (l.map setOk) = [] := by
  simp [responses, setOk]

/-- Successful `Set` calls carry no error. -/
theorem storeErrors_setOk (l : List (String × String)) : storeErrors (l.map setOk) = [] := by
  simp [storeErrors, setOk]

/-- Successful `Set` calls are no leader lookups. -/
theorem leaderCalls_setOk (l : List (String × String)) : leaderCalls (l.map setOk) = [] := by
  simp [leaderCalls, setOk]

/-- Successful `Set` calls are store calls. -/
theorem storeCalls_setOk (l : List (String × String)) :
    storeCalls (l.map setOk) = l.map setOk := by
  induction l with
  | nil => rfl
  | cons p l ih => simpa [storeCalls, setOk] using ih

theorem responses_append (a b : List Event) : responses (a ++ b) = responses a ++ responses b := by
  simp [responses]

theorem storeErrors_append (a b : List Event) :
    storeErrors (a ++ b) = storeErrors a ++ storeErrors b := by
  simp [storeErrors]

theorem leaderCalls_append (a b : List Event) :
    leaderCalls (a ++ b) = leaderCalls a ++ leaderCalls b := by
  simp [leaderCalls]

theorem storeCalls_append (a b : List Event) :
    storeCalls (a ++ b) = storeCalls a ++ storeCalls b := by
  simp [storeCalls]

/-- The trace of `handleKeyPost` on a body that decodes to `m`. -/
theorem handleKeyPost_trace (st : Store σ) (codec : Codec β) (c : Request β) (s : σ)
    (m : GoMap) (hm : codec.Decode c.Body = .ok m) :
    (handleKeyPost st codec c s).1 =
        m.entries.map setOk ++ [Event.respond (.text StatusOK "Set data success")] ∨
    ∃ pre k v post e s', m.entries = pre ++ (k, v) :: post ∧
      (handleKeyPost st codec c s).1 =
        pre.map setOk ++ Event.Set k v (some e) :: errorTail st c e s' := by
  rcases loop_spec st c m.entries s with ⟨h₁, h₂⟩ | ⟨h₁, pre, k, v, post, e, s', h₂, h₃⟩
  · left
    simp [handleKeyPost, hm, h₁, h₂]
  · right
    exact ⟨pre, k, v, post, e, s', h₂, by simp [handleKeyPost, hm, h₁, h₃]⟩

/-- C2: `FormRedirect` keeps the path and the raw query of the request and
replaces only scheme and host: the result is `"http://" ++ host ++ path` when
the raw query is empty and `"http://" ++ host ++ path ++ "?" ++ query`
otherwise. -/
theorem FormRedirect_same_path_query (c : Request β) (host : String) :
    (c.RawQuery = "" → FormRedirect c host = "http://" ++ host ++ c.Path) ∧
    (c.RawQuery ≠ "" →
      FormRedirect c host = "http://" ++ host ++ c.Path ++ "?" ++ c.RawQuery) := by
  have hp : "http" ++ "://" = "http://" := by decide
  constructor
  · intro h
    simp [FormRedirect, h, hp]
  · intro h
    simp [FormRedirect, h, hp, String.append_assoc]

/-- `FormRedirect` on a request without a query and on one with a query. -/
theorem FormRedirect_same_path_query_witness :
    (sampleDelete.RawQuery = "" ∧
      FormRedirect sampleDelete "10.0.0.2:8080" = "http://10.0.0.2:8080/key/a") ∧
    (sampleGet.RawQuery ≠ "" ∧
      FormRedirect sampleGet "10.0.0.2:8080" = "http://10.0.0.2:8080/key/a?level=stale") :=
  ⟨⟨by decide, (FormRedirect_same_path_query sampleDelete "10.0.0.2:8080").1 (by decide)⟩,
   ⟨by decide, (FormRedirect_same_path_query sampleGet "10.0.0.2:8080").2 (by decide)⟩⟩

/-! ### resolveLevel and handleKeyGet -/

/-- The error `resolveLevel` returns is nil on every input. -/
theorem resolveLevel_err (toLower : String → String) (s : String) :
    (resolveLevel toLower s).2 = none := by
  unfold resolveLevel
  simp only []
  split_ifs <;> rfl

/-- C9: `resolveLevel` maps a level string, after lower-casing, to
`Default`, `Stale` or `Consistent` when it reads "default", "stale" or
"consistent", and to `Default` for every other string, the empty one
included; the three levels are pairwise different and the error is always
nil. -/
theorem resolveLevel_spec (toLower : String → String) (s : String) :
    (toLower s = "default" → (resolveLevel toLower s).1 = ConsistencyLevel.Default) ∧
    (toLower s = "stale" → (resolveLevel toLower s).1 = ConsistencyLevel.Stale) ∧
    (toLower s = "consistent" → (resolveLevel toLower s).1 = ConsistencyLevel.Consistent) ∧
    (toLower s ≠ "default" → toLower s ≠ "stale" → toLower s ≠ "consistent" →
      (resolveLevel toLower s).1 = ConsistencyLevel.Default) ∧
    (toLower "" = "" → (resolveLevel toLower "").1 = ConsistencyLevel.Default) ∧
    (resolveLevel toLower s).2 = none ∧
    ConsistencyLevel.Default ≠ ConsistencyLevel.Stale ∧
    ConsistencyLevel.Default ≠ ConsistencyLevel.Consistent ∧
    ConsistencyLevel.Stale ≠ ConsistencyLevel.Consistent := by
  refine ⟨?_, ?_, ?_, ?_, ?_, ?_, by decide, by decide, by decide⟩
  · intro h; simp [resolveLevel, h]
  · intro h; simp [resolveLevel, h]
  · intro h; simp [resolveLevel, h]
  · intro h₁ h₂ h₃; simp [resolveLevel, h₁, h₂, h₃]
  · intro h; simp [resolveLevel, h]
  · exact resolveLevel_err toLower s

/-- `resolveLevel` under ASCII lower-casing on five level strings. -/
theorem resolveLevel_spec_witness :
    (sampleToLower "DEFAULT" = "default" ∧
      (resolveLevel sampleToLower "DEFAULT").1 = ConsistencyLevel.Default) ∧
    (sampleToLower "Stale" = "stale" ∧
      (resolveLevel sampleToLower "Stale").1 = ConsistencyLevel.Stale) ∧
    (sampleToLower "conSISTent" = "consistent" ∧
      (resolveLevel sampleToLower "conSISTent").1 = ConsistencyLevel.Consistent) ∧
    (sampleToLower "strong" ≠ "default" ∧ sampleToLower "strong" ≠ "stale" ∧
      sampleToLower "strong" ≠ "consistent" ∧
      (resolveLevel sampleToLower "strong").1 = ConsistencyLevel.Default) ∧
    (sampleToLower "" = "" ∧ (resolveLevel sampleToLower "").1 = ConsistencyLevel.Default) :=
  ⟨⟨by decide, (resolveLevel_spec sampleToLower "DEFAULT").1 (by decide)⟩,
   ⟨by decide, (resolveLevel_spec sampleToLower "Stale").2.1 (by decide)⟩,
   ⟨by decide, (resolveLevel_spec sampleToLower "conSISTent").2.2.1 (by decide)⟩,
   ⟨by decide, by decide, by decide,
    (resolveLevel_spec sampleToLower "strong").2.2.2.1 (by decide) (by decide) (by decide)⟩,
   ⟨by decide, (resolveLevel_spec sampleToLower "").2.2.2.2.1 (by decide)⟩⟩

/-- C10: `handleKeyGet` writes exactly one response per request. The second
"bad request" branch is dead because `resolveLevel` never returns an error;
with an empty key the trace is a single 400 and no store call; with a
non-empty key `store.Get` is called exactly once and exactly one response is
written, which is 200 with the object `{key: value}`, 307, 503 or 500. -/
theorem handleKeyGet_one_response (st : Store σ) (toLower : String → String)
    (c : Request β) (s : σ) :
    (resolveLevel toLower c.level).2 = none ∧
    (c.key = "" →
      (handleKeyGet st toLower c s).1 =
        [Event.respond (.text StatusBadRequest "bad request")]) ∧
    (c.key ≠ "" →
      storeCalls (handleKeyGet st toLower c s).1 =
        [Event.Get c.key (resolveLevel toLower c.level).1
          (st.Get c.key (resolveLevel toLower c.level).1 s).1.1
          (st.Get c.key (resolveLevel toLower c.level).1 s).1.2] ∧
      ∃ r, responses (handleKeyGet st toLower c s).1 = [r] ∧
        (r = .json StatusOK
            [(c.key, (st.Get c.key (resolveLevel toLower c.level).1 s).1.1)] ∨
          r.code = 307 ∨ r.code = 503 ∨ r.code = 500)) := by
  have hrl : (resolveLevel toLower c.level).2 = none := resolveLevel_err toLower c.level
  refine ⟨hrl, ?_, ?_⟩
  · intro h
    simp [handleKeyGet, h]
  · intro h
    cases hg : (st.Get c.key (resolveLevel toLower c.level).1 s).1.2 with
    | none =>
      simp [handleKeyGet, h, hrl, hg, storeCalls, responses]
    | some e =>
      by_cases he : e = Error.ErrNotLeader
      · by_cases hl :
          (st.LeaderAPIAddr (st.Get c.key (resolveLevel toLower c.level).1 s).2).1 = ""
        · simp [handleKeyGet, h, hrl, hg, he, hl, storeCalls, responses, Response.code,
            StatusServiceUnavailable]
        · simp [handleKeyGet, h, hrl, hg, he, hl, storeCalls, responses, Response.code,
            StatusTemporaryRedirect]
      · simp [handleKeyGet, h, hrl, hg, he, storeCalls, responses, Response.code,
          StatusInternalServerError]

/-- `handleKeyGet` on a request without a key and on `GET /key/a?level=stale`
against a store that holds `a`. -/
theorem handleKeyGet_one_response_witness :
    (({ sampleGet with key := "" } : Request (List (String × String))).key = "" ∧
      (handleKeyGet orphan sampleToLower { sampleGet with key := "" } 0).1 =
        [Event.respond (.text 400 "bad request")]) ∧
    (sampleGet.key ≠ "" ∧
      storeCalls (handleKeyGet orphan sampleToLower sampleGet 0).1 =
        [Event.Get "a" ConsistencyLevel.Stale "1" none] ∧
      ∃ r, responses (handleKeyGet orphan sampleToLower sampleGet 0).1 = [r] ∧
        (r = .json StatusOK [("a", "1")] ∨ r.code = 307 ∨ r.code = 503 ∨ r.code = 500)) :=
  ⟨⟨rfl, (handleKeyGet_one_response orphan sampleToLower { sampleGet with key := "" } 0).2.1 rfl⟩,
   ⟨by decide, (handleKeyGet_one_response orphan sampleToLower sampleGet 0).2.2 (by decide)⟩⟩

/-! ### The answer to ErrNotLeader and to other errors -/

/-- C1: in `handleKeyGet`, `handleKeyDelete`, `handleKeyPost` and `handleJoin`,
when the store call returns `ErrNotLeader` the handler next calls
`LeaderAPIAddr()` and then writes one response: a 307 redirect to
`FormRedirect(request, leader)` when the leader address is not empty, and a
503 exactly when it is empty. -/
theorem notLeader_redirects (st : Store σ) (toLower : String → String) (codec : Codec β)
    (c : Request β) (s : σ) :
    (c.key ≠ "" →
      (st.Get c.key (resolveLevel toLower c.level).1 s).1.2 = some Error.ErrNotLeader →
      (handleKeyGet st toLower c s).1 =
        [Event.Get c.key (resolveLevel toLower c.level).1
            (st.Get c.key (resolveLevel toLower c.level).1 s).1.1 (some Error.ErrNotLeader),
          Event.LeaderAPIAddr
            (st.LeaderAPIAddr (st.Get c.key (resolveLevel toLower c.level).1 s).2).1,
          Event.respond (notLeaderResponse st c
            (st.LeaderAPIAddr (st.Get c.key (resolveLevel toLower c.level).1 s).2).1)]) ∧
    (c.key ≠ "" → (st.Delete c.key s).1 = some Error.ErrNotLeader →
      (handleKeyDelete st c s).1 =
        [Event.Delete c.key (some Error.ErrNotLeader),
          Event.LeaderAPIAddr (st.LeaderAPIAddr (st.Delete c.key s).2).1,
          Event.respond (notLeaderResponse st c
            (st.LeaderAPIAddr (st.Delete c.key s).2).1)]) ∧
    (∀ pre k v post,
      (handleKeyPost st codec c s).1 = pre ++ Event.Set k v (some Error.ErrNotLeader) :: post →
      ∃ s', post =
        [Event.LeaderAPIAddr (st.LeaderAPIAddr s').1,
          Event.respond (notLeaderResponse st c (st.LeaderAPIAddr s').1)]) ∧
    (∀ m nodeID httpAddr raftAddr, codec.Decode c.Body = .ok m → m.len = 3 →
      m.get "httpAddr" = some httpAddr → m.get "raftAddr" = some raftAddr →
      m.get "id" = some nodeID →
      (st.Join nodeID httpAddr raftAddr s).1 = some Error.ErrNotLeader →
      (handleJoin st codec c s).1 =
        [Event.Join nodeID httpAddr raftAddr (some Error.ErrNotLeader),
          Event.LeaderAPIAddr (st.LeaderAPIAddr (st.Join nodeID httpAddr raftAddr s).2).1,
          Event.respond (notLeaderResponse st c
            (st.LeaderAPIAddr (st.Join nodeID httpAddr raftAddr s).2).1)]) ∧
    (∀ leader,
      (leader ≠ "" → notLeaderResponse st c leader =
        .redirect StatusTemporaryRedirect (FormRedirect c leader)) ∧
      ((notLeaderResponse st c leader).code = 503 ↔ leader = "") ∧
      ((∃ loc, notLeaderResponse st c leader = .redirect 307 loc) ↔ leader ≠ "")) := by
  refine ⟨?_, ?_, ?_, ?_, ?_⟩
  · intro hk hg
    by_cases hl : (st.LeaderAPIAddr (st.Get c.key (resolveLevel toLower c.level).1 s).2).1 = ""
    · simp [handleKeyGet, hk, resolveLevel_err, hg, hl, notLeaderResponse]
    · simp [handleKeyGet, hk, resolveLevel_err, hg, hl, notLeaderResponse]
  · intro hk hd
    by_cases hl : (st.LeaderAPIAddr (st.Delete c.key s).2).1 = ""
    · simp [handleKeyDelete, hk, hd, hl, notLeaderResponse]
    · simp [handleKeyDelete, hk, hd, hl, notLeaderResponse]
  · intro pre k v post ht
    cases hm : codec.Decode c.Body with
    | error e =>
      have h400 : (handleKeyPost st codec c s).1 =
          [Event.respond (.text StatusBadRequest "bad request")] := by
        simp [handleKeyPost, hm]
      rw [h400] at ht
      have hmem : Event.Set k v (some Error.ErrNotLeader) ∈
          [Event.respond (.text StatusBadRequest "bad request")] := by
        rw [ht]; simp
      simp at hmem
    | ok m =>
      rcases handleKeyPost_trace st codec c s m hm with h | ⟨pre', k', v', post', e, s', _, h⟩
      · rw [h] at ht
        have hmem : Event.Set k v (some Error.ErrNotLeader) ∈
            m.entries.map setOk ++ [Event.respond (.text StatusOK "Set data success")] := by
          rw [ht]; simp
        simp [setOk] at hmem
      · rw [h] at ht
        have hp : ∀ x ∈ pre'.map setOk, ¬ (∃ a b e', x = Event.Set a b (some e')) := by
          intro x hx
          simp only [List.mem_map, setOk] at hx
          obtain ⟨p, _, rfl⟩ := hx
          simp
        have hq : ∀ x ∈ errorTail st c e s', ¬ (∃ a b e', x = Event.Set a b (some e')) := by
          intro x hx
          unfold errorTail at hx
          split_ifs at hx <;> simp at hx <;> rcases hx with rfl | rfl <;> simp
        obtain ⟨_, h₂, h₃⟩ := split_unique (fun x => ∃ a b e', x = Event.Set a b (some e'))
          pre (pre'.map setOk) post (errorTail st c e s') _ _ ht.symm ⟨k, v, _, rfl⟩ hp hq
        have he : e = Error.ErrNotLeader := by
          simp only [Event.Set.injEq, Option.some.injEq] at h₂
          exact h₂.2.2.symm
        refine ⟨s', ?_⟩
        rw [h₃, he]
        simp [errorTail]
  · intro m nodeID httpAddr raftAddr hm hlen hh hr hi hj
    by_cases hl : (st.LeaderAPIAddr (st.Join nodeID httpAddr raftAddr s).2).1 = ""
    · simp [handleJoin, hm, hlen, hh, hr, hi, hj, hl, notLeaderResponse]
    · simp [handleJoin, hm, hlen, hh, hr, hi, hj, hl, notLeaderResponse]
  · intro leader
    by_cases hl : leader = ""
    · simp [notLeaderResponse, hl, Response.code, StatusServiceUnavailable]
    · simp [notLeaderResponse, hl, Response.code, StatusTemporaryRedirect]

/-- The four handlers against a follower: a redirect to the known leader, and
a 503 when no leader is known. -/
theorem notLeader_redirects_witness :
    ((sampleGet.key ≠ "" ∧
      (follower.Get sampleGet.key (resolveLevel sampleToLower sampleGet.level).1 0).1.2 =
        some Error.ErrNotLeader) ∧
      (handleKeyGet follower sampleToLower sampleGet 0).1 =
        [Event.Get "a" ConsistencyLevel.Stale "" (some Error.ErrNotLeader),
          Event.LeaderAPIAddr "10.0.0.2:8080",
          Event.respond (.redirect 307 "http://10.0.0.2:8080/key/a?level=stale")]) ∧
    ((sampleDelete.key ≠ "" ∧ (follower.Delete sampleDelete.key 0).1 = some Error.ErrNotLeader) ∧
      (handleKeyDelete follower sampleDelete 0).1 =
        [Event.Delete "a" (some Error.ErrNotLeader), Event.LeaderAPIAddr "10.0.0.2:8080",
          Event.respond (.redirect 307 "http://10.0.0.2:8080/key/a")]) ∧
    ((handleKeyPost orphan sampleCodec (samplePost [("a", "1"), ("b", "2"), ("c", "3")]) 0).1 =
        [Event.Set "a" "1" none] ++ Event.Set "b" "2" (some Error.ErrNotLeader) ::
          [Event.LeaderAPIAddr "", Event.respond (.text 503 "not leader")] ∧
      ∃ s' : Nat, [Event.LeaderAPIAddr "", Event.respond (.text 503 "not leader")] =
        [Event.LeaderAPIAddr (orphan.LeaderAPIAddr s').1,
          Event.respond (notLeaderResponse orphan
            (samplePost [("a", "1"), ("b", "2"), ("c", "3")]) (orphan.LeaderAPIAddr s').1)]) ∧
    ((sampleCodec.Decode (sampleJoin sampleJoinBody).Body = .ok sampleJoinMap ∧
      sampleJoinMap.len = 3 ∧ sampleJoinMap.get "httpAddr" = some "h" ∧
      sampleJoinMap.get "raftAddr" = some "r" ∧ sampleJoinMap.get "id" = some "a" ∧
      (follower.Join "a" "h" "r" 0).1 = some Error.ErrNotLeader) ∧
      (handleJoin follower sampleCodec (sampleJoin sampleJoinBody) 0).1 =
        [Event.Join "a" "h" "r" (some Error.ErrNotLeader), Event.LeaderAPIAddr "10.0.0.2:8080",
          Event.respond (.redirect 307 "http://10.0.0.2:8080/join")]) :=
  ⟨⟨⟨by decide, by decide⟩,
    (notLeader_redirects follower sampleToLower sampleCodec sampleGet 0).1
      (by decide) (by decide)⟩,
   ⟨⟨by decide, by decide⟩,
    (notLeader_redirects follower sampleToLower sampleCodec sampleDelete 0).2.1
      (by decide) (by decide)⟩,
   ⟨by decide,
    (notLeader_redirects orphan sampleToLower sampleCodec
      (samplePost [("a", "1"), ("b", "2"), ("c", "3")]) 0).2.2.1
      [Event.Set "a" "1" none] "b" "2" _ (by decide)⟩,
   ⟨⟨rfl, by decide, by decide, by decide, by decide, by decide⟩,
    (notLeader_redirects follower sampleToLower sampleCodec (sampleJoin sampleJoinBody)
      0).2.2.2.1 sampleJoinMap "a" "h" "r"
      rfl (by decide) (by decide) (by decide) (by decide) (by decide)⟩⟩

/-- C4: in each of the four handlers an error of the store call other than
`ErrNotLeader` is answered with a single 500, without any call of
`LeaderAPIAddr()`; and a 307 or 503 is written only when the store call
returned `ErrNotLeader`. -/
theorem other_errors_not_conflated (st : Store σ) (toLower : String → String)
    (codec : Codec β) (c : Request β) (s : σ) :
    ∀ t ∈ [(handleKeyGet st toLower c s).1, (handleKeyDelete st c s).1,
        (handleKeyPost st codec c s).1, (handleJoin st codec c s).1],
      (∀ e ∈ storeErrors t, e ≠ Error.ErrNotLeader →
        leaderCalls t = [] ∧
        ∃ body, responses t = [.text StatusInternalServerError body]) ∧
      (∀ r ∈ responses t, r.code = 307 ∨ r.code = 503 →
        Error.ErrNotLeader ∈ storeErrors t) := by
  intro t ht
  simp only [List.mem_cons, List.mem_singleton, List.not_mem_nil, or_false] at ht
  rcases ht with rfl | rfl | rfl | rfl
  · by_cases hk : c.key = ""
    · simp [handleKeyGet, hk, storeErrors, responses, Response.code, StatusBadRequest]
    · cases hg : (st.Get c.key (resolveLevel toLower c.level).1 s).1.2 with
      | none =>
        simp [handleKeyGet, hk, resolveLevel_err, hg, storeErrors, responses, Response.code,
          StatusOK]
      | some e =>
        by_cases he : e = Error.ErrNotLeader
        · by_cases hl :
            (st.LeaderAPIAddr (st.Get c.key (resolveLevel toLower c.level).1 s).2).1 = ""
          · simp [handleKeyGet, hk, resolveLevel_err, hg, he, hl, storeErrors, responses]
          · simp [handleKeyGet, hk, resolveLevel_err, hg, he, hl, storeErrors, responses]
        · simp [handleKeyGet, hk, resolveLevel_err, hg, he, storeErrors, responses,
            leaderCalls, Response.code, StatusInternalServerError]
  · by_cases hk : c.key = ""
    · simp [handleKeyDelete, hk, storeErrors, responses, Response.code, StatusBadRequest]
    · cases hd : (st.Delete c.key s).1 with
      | none =>
        simp [handleKeyDelete, hk, hd, storeErrors, responses, Response.code, StatusOK]
      | some e =>
        by_cases he : e = Error.ErrNotLeader
        · by_cases hl : (st.LeaderAPIAddr (st.Delete c.key s).2).1 = ""
          · simp [handleKeyDelete, hk, hd, he, hl, storeErrors, responses]
          · simp [handleKeyDelete, hk, hd, he, hl, storeErrors, responses]
        · simp [handleKeyDelete, hk, hd, he, storeErrors, responses, leaderCalls,
            Response.code, StatusInternalServerError]
  · cases hm : codec.Decode c.Body with
    | error e =>
      simp [handleKeyPost, hm, storeErrors, responses, Response.code, StatusBadRequest]
    | ok m =>
      rcases handleKeyPost_trace st codec c s m hm with h | ⟨pre, k, v, post, e, s', _, h⟩
      · rw [h]
        simp [storeErrors_append, responses_append, storeErrors_setOk, responses_setOk]
        simp [storeErrors, responses, Response.code, StatusOK]
      · rw [h]
        have hc : pre.map setOk ++ Event.Set k v (some e) :: errorTail st c e s' =
            pre.map setOk ++ ([Event.Set k v (some e)] ++ errorTail st c e s') := by simp
        rw [hc]
        simp only [storeErrors_append, responses_append, leaderCalls_append,
          storeErrors_setOk, responses_setOk, leaderCalls_setOk, List.nil_append]
        by_cases he : e = Error.ErrNotLeader
        · by_cases hl : (st.LeaderAPIAddr s').1 = ""
          · simp [errorTail, he, hl, storeErrors, responses, notLeaderResponse]
          · simp [errorTail, he, hl, storeErrors, responses, notLeaderResponse]
        · simp [errorTail, he, storeErrors, responses, leaderCalls, Response.code,
            StatusInternalServerError]
  · cases hm : codec.Decode c.Body with
    | error e =>
      simp [handleJoin, hm, storeErrors, responses, Response.code, StatusBadRequest]
    | ok m =>
      by_cases hlen : m.len = 3
      · cases hh : m.get "httpAddr" with
        | none =>
          simp [handleJoin, hm, hlen, hh, storeErrors, responses, Response.code,
            StatusBadRequest]
        | some httpAddr =>
          cases hr : m.get "raftAddr" with
          | none =>
            simp [handleJoin, hm, hlen, hh, hr, storeErrors, responses, Response.code,
              StatusBadRequest]
          | some raftAddr =>
            cases hi : m.get "id" with
            | none =>
              simp [handleJoin, hm, hlen, hh, hr, hi, storeErrors, responses, Response.code,
                StatusBadRequest]
            | some nodeID =>
              cases hj : (st.Join nodeID httpAddr raftAddr s).1 with
              | none =>
                simp [handleJoin, hm, hlen, hh, hr, hi, hj, storeErrors, responses]
              | some e =>
                by_cases he : e = Error.ErrNotLeader
                · by_cases hl :
                    (st.LeaderAPIAddr (st.Join nodeID httpAddr raftAddr s).2).1 = ""
                  · simp [handleJoin, hm, hlen, hh, hr, hi, hj, he, hl, storeErrors, responses]
                  · simp [handleJoin, hm, hlen, hh, hr, hi, hj, he, hl, storeErrors, responses]
                · simp [handleJoin, hm, hlen, hh, hr, hi, hj, he, storeErrors, responses,
                    leaderCalls, Response.code, StatusInternalServerError]
      · simp [handleJoin, hm, hlen, storeErrors, responses, Response.code, StatusBadRequest]

/-- A `DELETE` that times out is answered with a 500 and no leader lookup; the
redirect of a `GET` comes from `ErrNotLeader`. -/
theorem other_errors_not_conflated_witness :
    ((Error.other "timeout" ∈ storeErrors (handleKeyDelete slow { sampleDelete with key := "b" } 0).1 ∧
      Error.other "timeout" ≠ Error.ErrNotLeader) ∧
      leaderCalls (handleKeyDelete slow { sampleDelete with key := "b" } 0).1 = [] ∧
      ∃ body, responses (handleKeyDelete slow { sampleDelete with key := "b" } 0).1 =
        [.text StatusInternalServerError body]) ∧
    ((Response.redirect 307 "http://10.0.0.2:8080/key/a?level=stale" ∈
        responses (handleKeyGet follower sampleToLower sampleGet 0).1 ∧
      (Response.redirect 307 "http://10.0.0.2:8080/key/a?level=stale").code = 307) ∧
      Error.ErrNotLeader ∈ storeErrors (handleKeyGet follower sampleToLower sampleGet 0).1) :=
  ⟨⟨⟨by decide, by decide⟩,
    ((other_errors_not_conflated slow sampleToLower sampleCodec
      { sampleDelete with key := "b" } 0 _ (by simp)).1 (Error.other "timeout")
      (by decide) (by decide))⟩,
   ⟨⟨by decide, by decide⟩,
    ((other_errors_not_conflated follower sampleToLower sampleCodec sampleGet 0 _
      (by simp)).2 (Response.redirect 307 "http://10.0.0.2:8080/key/a?level=stale")
      (by decide) (Or.inl (by decide)))⟩⟩

/-! ### handleKeyPost -/

/-- C3: `handleKeyPost` applies the pairs of the decoded map one at a time,
in iteration order, and the first failure aborts the rest: either `Set` is
called once on every pair, each call returns nil and the response is 200
"Set data success"; or `Set` is called once on each pair up to and including
the first one whose `Set` returns an error, on no pair after it, and the
response is not a 200. So the response is 200 "Set data success" exactly when
every `Set` returned nil. -/
theorem handleKeyPost_first_failure_aborts (st : Store σ) (codec : Codec β) (c : Request β)
    (s : σ) (m : GoMap) (hm : codec.Decode c.Body = .ok m) :
    ((storeCalls (handleKeyPost st codec c s).1 = m.entries.map setOk ∧
        responses (handleKeyPost st codec c s).1 = [.text StatusOK "Set data success"]) ∨
      (∃ pre k v post e, m.entries = pre ++ (k, v) :: post ∧
        storeCalls (handleKeyPost st codec c s).1 =
          pre.map setOk ++ [Event.Set k v (some e)] ∧
        ∃ r, responses (handleKeyPost st codec c s).1 = [r] ∧ r.code ≠ 200)) ∧
    (responses (handleKeyPost st codec c s).1 = [.text StatusOK "Set data success"] ↔
      ∀ k v err, Event.Set k v err ∈ (handleKeyPost st codec c s).1 → err = none) := by
  rcases handleKeyPost_trace st codec c s m hm with h | ⟨pre, k, v, post, e, s', hpre, h⟩
  · have h₁ : storeCalls (handleKeyPost st codec c s).1 = m.entries.map setOk := by
      rw [h, storeCalls_append, storeCalls_setOk]
      simp [storeCalls]
    have h₂ : responses (handleKeyPost st codec c s).1 =
        [.text StatusOK "Set data success"] := by
      rw [h, responses_append, responses_setOk]
      simp [responses]
    refine ⟨Or.inl ⟨h₁, h₂⟩, ?_⟩
    constructor
    · intro _ k v err hmem
      rw [h] at hmem
      simp only [List.mem_append, List.mem_map, List.mem_singleton, setOk] at hmem
      rcases hmem with ⟨p, _, hp⟩ | hp
      · simp only [Event.Set.injEq] at hp
        exact hp.2.2.symm
      · simp at hp
    · intro _
      exact h₂
  · have hc : pre.map setOk ++ Event.Set k v (some e) :: errorTail st c e s' =
        pre.map setOk ++ ([Event.Set k v (some e)] ++ errorTail st c e s') := by simp
    have h₁ : storeCalls (handleKeyPost st codec c s).1 =
        pre.map setOk ++ [Event.Set k v (some e)] := by
      rw [h, hc, storeCalls_append, storeCalls_append, storeCalls_setOk]
      unfold errorTail
      split_ifs <;> simp [storeCalls]
    have h₂ : ∃ r, responses (handleKeyPost st codec c s).1 = [r] ∧ r.code ≠ 200 := by
      rw [h, hc, responses_append, responses_append, responses_setOk]
      unfold errorTail notLeaderResponse
      split_ifs <;> simp [responses, Response.code, StatusServiceUnavailable,
        StatusTemporaryRedirect, StatusInternalServerError]
    refine ⟨Or.inr ⟨pre, k, v, post, e, hpre, h₁, h₂⟩, ?_⟩
    constructor
    · intro h200
      obtain ⟨r, hr, hcode⟩ := h₂
      rw [hr] at h200
      simp only [List.cons.injEq, and_true] at h200
      rw [h200] at hcode
      exact absurd rfl hcode
    · intro hall
      have : some e = none := hall k v (some e) (by rw [h]; simp)
      simp at this

/-- `POST /key` with three pairs against a store that fails on the second. -/
theorem handleKeyPost_first_failure_aborts_witness :
    sampleCodec.Decode (samplePost samplePostMap.entries).Body = .ok samplePostMap ∧
    ((storeCalls (handleKeyPost orphan sampleCodec (samplePost samplePostMap.entries) 0).1 =
          samplePostMap.entries.map setOk ∧
        responses (handleKeyPost orphan sampleCodec (samplePost samplePostMap.entries) 0).1 =
          [.text StatusOK "Set data success"]) ∨
      (∃ pre k v post e, samplePostMap.entries = pre ++ (k, v) :: post ∧
        storeCalls (handleKeyPost orphan sampleCodec (samplePost samplePostMap.entries) 0).1 =
          pre.map setOk ++ [Event.Set k v (some e)] ∧
        ∃ r, responses (handleKeyPost orphan sampleCodec
          (samplePost samplePostMap.entries) 0).1 = [r] ∧ r.code ≠ 200)) ∧
    (responses (handleKeyPost orphan sampleCodec (samplePost samplePostMap.entries) 0).1 =
        [.text StatusOK "Set data success"] ↔
      ∀ k v err, Event.Set k v err ∈
        (handleKeyPost orphan sampleCodec (samplePost samplePostMap.entries) 0).1 →
        err = none) :=
  ⟨rfl, handleKeyPost_first_failure_aborts orphan sampleCodec
    (samplePost samplePostMap.entries) 0 samplePostMap rfl⟩

/-! ### handleJoin and the join client -/

/-- A key with a value in the map is one of its keys. -/
theorem GoMap.mem_keys_of_get (m : GoMap) (k v : String) (h : m.get k = some v) :
    k ∈ m.keys := by
  unfold GoMap.get at h
  obtain ⟨l₁, l₂, hl, _⟩ := List.lookup_eq_some_iff.mp h
  simp [GoMap.keys, hl]

/-- A member of the map is what `get` returns for its key. -/
theorem GoMap.get_of_mem (m : GoMap) (k v : String) (h : (k, v) ∈ m.entries) :
    m.get k = some v := by
  obtain ⟨l, hnd⟩ := m
  simp only [GoMap.get] at *
  induction l with
  | nil => simp at h
  | cons p l ih =>
    obtain ⟨k', v'⟩ := p
    simp only [List.map_cons, List.nodup_cons, List.mem_map, not_exists, not_and] at hnd
    rcases List.mem_cons.mp h with heq | hmem
    · simp only [Prod.mk.injEq] at heq
      rw [heq.1, heq.2]
      simp
    · have hne : k ≠ k' := by
        intro hk
        exact hnd.1 (k, v) hmem hk
      rw [List.lookup_cons]
      have : (k == k') = false := by simpa using hne
      rw [this]
      exact ih hnd.2 hmem

/-- Every key of the map has a value. -/
theorem GoMap.get_of_mem_keys (m : GoMap) (k : String) (h : k ∈ m.keys) :
    ∃ v, m.get k = some v := by
  simp only [GoMap.keys, List.mem_map] at h
  obtain ⟨p, hp, rfl⟩ := h
  exact ⟨p.2, m.get_of_mem p.1 p.2 hp⟩

/-- A map with three entries that has the keys "httpAddr", "raftAddr" and
"id" has no other key. -/
theorem GoMap.keys_of_three (m : GoMap) (hlen : m.len = 3) (h₁ : "httpAddr" ∈ m.keys)
    (h₂ : "raftAddr" ∈ m.keys) (h₃ : "id" ∈ m.keys) (k : String) :
    k ∈ m.keys ↔ k = "httpAddr" ∨ k = "raftAddr" ∨ k = "id" := by
  have hsub : ["httpAddr", "raftAddr", "id"] ⊆ m.keys := by
    intro x hx
    simp only [List.mem_cons, List.mem_singleton, List.not_mem_nil, or_false] at hx
    rcases hx with rfl | rfl | rfl <;> assumption
  have hnd : (["httpAddr", "raftAddr", "id"] : List String).Nodup := by simp
  have hperm : List.Perm ["httpAddr", "raftAddr", "id"] m.keys :=
    (List.subperm_of_subset hnd hsub).perm_of_length_le (by
      simp only [GoMap.keys, List.length_map]
      exact le_of_eq hlen)
  rw [← hperm.mem_iff]
  simp

/-- The trace of `handleJoin` on a body that passes every check: `Join` is
called once, with the ID first, and no 400 is written. -/
theorem handleJoin_valid (st : Store σ) (codec : Codec β) (c : Request β) (s : σ)
    (m : GoMap) (nodeID httpAddr raftAddr : String) (hm : codec.Decode c.Body = .ok m)
    (hlen : m.len = 3) (hh : m.get "httpAddr" = some httpAddr)
    (hr : m.get "raftAddr" = some raftAddr) (hi : m.get "id" = some nodeID) :
    storeCalls (handleJoin st codec c s).1 =
        [Event.Join nodeID httpAddr raftAddr (st.Join nodeID httpAddr raftAddr s).1] ∧
    ∀ r ∈ responses (handleJoin st codec c s).1, r.code ≠ 400 := by
  cases hj : (st.Join nodeID httpAddr raftAddr s).1 with
  | none => simp [handleJoin, hm, hlen, hh, hr, hi, hj, storeCalls, responses]
  | some e =>
    by_cases he : e = Error.ErrNotLeader
    · by_cases hl : (st.LeaderAPIAddr (st.Join nodeID httpAddr raftAddr s).2).1 = ""
      · simp [handleJoin, hm, hlen, hh, hr, hi, hj, he, hl, storeCalls, responses,
          Response.code, StatusServiceUnavailable]
      · simp [handleJoin, hm, hlen, hh, hr, hi, hj, he, hl, storeCalls, responses,
          Response.code, StatusTemporaryRedirect]
    · simp [handleJoin, hm, hlen, hh, hr, hi, hj, he, storeCalls, responses,
        Response.code, StatusInternalServerError]

/-- C5: `handleJoin` accepts exactly the JSON object `{httpAddr, raftAddr,
id}`. When the body decodes to a map with exactly three entries whose keys are
"httpAddr", "raftAddr" and "id", `store.Join` is called once, as
`Join(m["id"], m["httpAddr"], m["raftAddr"])`; in every other case the trace
is a single 400 and `store.Join` is not called. -/
theorem handleJoin_accepts_exactly (st : Store σ) (codec : Codec β) (c : Request β) (s : σ) :
    (∀ m, codec.Decode c.Body = .ok m → m.len = 3 →
      (∀ k, k ∈ m.keys ↔ k = "httpAddr" ∨ k = "raftAddr" ∨ k = "id") →
      ∃ nodeID httpAddr raftAddr, m.get "id" = some nodeID ∧
        m.get "httpAddr" = some httpAddr ∧ m.get "raftAddr" = some raftAddr ∧
        storeCalls (handleJoin st codec c s).1 =
          [Event.Join nodeID httpAddr raftAddr (st.Join nodeID httpAddr raftAddr s).1]) ∧
    ((¬ ∃ m, codec.Decode c.Body = .ok m ∧ m.len = 3 ∧
        ∀ k, k ∈ m.keys ↔ k = "httpAddr" ∨ k = "raftAddr" ∨ k = "id") →
      (handleJoin st codec c s).1 = [Event.respond (.text StatusBadRequest "bad request")]) := by
  constructor
  · intro m hm hlen hkeys
    obtain ⟨httpAddr, hh⟩ := m.get_of_mem_keys "httpAddr" ((hkeys _).mpr (Or.inl rfl))
    obtain ⟨raftAddr, hr⟩ := m.get_of_mem_keys "raftAddr" ((hkeys _).mpr (Or.inr (Or.inl rfl)))
    obtain ⟨nodeID, hi⟩ := m.get_of_mem_keys "id" ((hkeys _).mpr (Or.inr (Or.inr rfl)))
    exact ⟨nodeID, httpAddr, raftAddr, hi, hh, hr,
      (handleJoin_valid st codec c s m nodeID httpAddr raftAddr hm hlen hh hr hi).1⟩
  · intro hno
    cases hm : codec.Decode c.Body with
    | error e => simp [handleJoin, hm]
    | ok m =>
      by_cases hlen : m.len = 3
      · cases hh : m.get "httpAddr" with
        | none => simp [handleJoin, hm, hlen, hh]
        | some httpAddr =>
          cases hr : m.get "raftAddr" with
          | none => simp [handleJoin, hm, hlen, hh, hr]
          | some raftAddr =>
            cases hi : m.get "id" with
            | none => simp [handleJoin, hm, hlen, hh, hr, hi]
            | some nodeID =>
              exact absurd ⟨m, rfl, hlen, m.keys_of_three hlen
                (m.mem_keys_of_get _ _ hh) (m.mem_keys_of_get _ _ hr)
                (m.mem_keys_of_get _ _ hi)⟩ (hm ▸ hno)
      · simp [handleJoin, hm, hlen]

/-- `POST /join` with the three members, and with the ID alone. -/
theorem handleJoin_accepts_exactly_witness :
    ((sampleCodec.Decode (sampleJoin sampleJoinBody).Body = .ok sampleJoinMap ∧
        sampleJoinMap.len = 3 ∧
        ∀ k, k ∈ sampleJoinMap.keys ↔ k = "httpAddr" ∨ k = "raftAddr" ∨ k = "id") ∧
      ∃ nodeID httpAddr raftAddr, sampleJoinMap.get "id" = some nodeID ∧
        sampleJoinMap.get "httpAddr" = some httpAddr ∧
        sampleJoinMap.get "raftAddr" = some raftAddr ∧
        storeCalls (handleJoin orphan sampleCodec (sampleJoin sampleJoinBody) 0).1 =
          [Event.Join nodeID httpAddr raftAddr (orphan.Join nodeID httpAddr raftAddr 0).1]) ∧
    ((¬ ∃ m, sampleCodec.Decode (sampleJoin [("id", "a")]).Body = .ok m ∧ m.len = 3 ∧
        ∀ k, k ∈ m.keys ↔ k = "httpAddr" ∨ k = "raftAddr" ∨ k = "id") ∧
      (handleJoin orphan sampleCodec (sampleJoin [("id", "a")]) 0).1 =
        [Event.respond (.text StatusBadRequest "bad request")]) := by
  have hkeys : ∀ k, k ∈ sampleJoinMap.keys ↔ k = "httpAddr" ∨ k = "raftAddr" ∨ k = "id" := by
    intro k
    simp only [GoMap.keys, sampleJoinMap, sampleJoinBody, List.map_cons, List.map_nil,
      List.mem_cons, List.mem_singleton, List.not_mem_nil, or_false]
    tauto
  have hno : ¬ ∃ m, sampleCodec.Decode (sampleJoin [("id", "a")]).Body = .ok m ∧ m.len = 3 ∧
      ∀ k, k ∈ m.keys ↔ k = "httpAddr" ∨ k = "raftAddr" ∨ k = "id" := by
    rintro ⟨m, hm, hlen, _⟩
    simp only [sampleCodec, sampleJoin] at hm
    rw [dif_pos (by simp)] at hm
    simp only [Except.ok.injEq] at hm
    rw [← hm] at hlen
    simp [GoMap.len] at hlen
  exact ⟨⟨⟨rfl, by decide, hkeys⟩,
    (handleJoin_accepts_exactly orphan sampleCodec (sampleJoin sampleJoinBody) 0).1
      sampleJoinMap rfl (by decide) hkeys⟩,
    ⟨hno, (handleJoin_accepts_exactly orphan sampleCodec (sampleJoin [("id", "a")]) 0).2 hno⟩⟩

/-- C6, amended: the join client and the join handler agree on the wire
format whenever the JSON round trip is lossless. When the JSON library
marshals the client's map to the body `b` and decodes `b` back to a map with
the same entries, `join` posts `b` to `http://<joinAddr>/join`, and
`handleJoin` on a request with body `b` passes every check (no 400) and calls
`store.Join(nodeID, httpAddr, raftAddr)` once, with the three values in the
roles the client gave them. -/
theorem join_agrees_with_handleJoin {σ₁ σ₂ : Type} (host : Host σ₁ β) (st : Store σ₂)
    (codec : Codec β) (joinAddr httpAddr raftAddr nodeID : String) (s₁ : σ₁)
    (c : Request β) (s₂ : σ₂) (b : β) (m : GoMap)
    (hmar : codec.Marshal (joinMap httpAddr raftAddr nodeID) = .ok b)
    (hdec : codec.Decode b = .ok m)
    (hperm : m.entries.Perm (joinMap httpAddr raftAddr nodeID).entries)
    (hc : c.Body = b) :
    (join host codec joinAddr httpAddr raftAddr nodeID s₁).1 =
        [BootEvent.Post ("http://" ++ joinAddr ++ "/join") "application-type/json" b
          (host.Post ("http://" ++ joinAddr ++ "/join") "application-type/json" b s₁).1] ∧
    storeCalls (handleJoin st codec c s₂).1 =
        [Event.Join nodeID httpAddr raftAddr (st.Join nodeID httpAddr raftAddr s₂).1] ∧
    ∀ r ∈ responses (handleJoin st codec c s₂).1, r.code ≠ 400 := by
  constructor
  · unfold join
    rw [hmar]
    simp only []
    split <;> rfl
  · have hlen : m.len = 3 := by
      simp only [GoMap.len, hperm.length_eq, joinMap, List.length_cons, List.length_nil]
    have hh : m.get "httpAddr" = some httpAddr :=
      m.get_of_mem _ _ (hperm.mem_iff.mpr (by simp [joinMap]))
    have hr : m.get "raftAddr" = some raftAddr :=
      m.get_of_mem _ _ (hperm.mem_iff.mpr (by simp [joinMap]))
    have hi : m.get "id" = some nodeID :=
      m.get_of_mem _ _ (hperm.mem_iff.mpr (by simp [joinMap]))
    exact handleJoin_valid st codec c s₂ m nodeID httpAddr raftAddr (hc ▸ hdec) hlen hh hr hi

/-- Node `n2` joins through `localhost:8080`: its ASCII addresses and ID
survive the JSON round trip, and the member calls `Join` with them. -/
theorem join_agrees_with_handleJoin_witness :
    (jsonCodec.Marshal (joinMap "localhost:8081" "localhost:9001" "n2") = .ok sampleWire ∧
      jsonCodec.Decode sampleWire = .ok sampleWireMap ∧
      sampleWireMap.entries.Perm (joinMap "localhost:8081" "localhost:9001" "n2").entries ∧
      (sampleJoin sampleWire).Body = sampleWire) ∧
    (join sampleHost jsonCodec "localhost:8080" "localhost:8081" "localhost:9001" "n2" 0).1 =
      [BootEvent.Post "http://localhost:8080/join" "application-type/json" sampleWire none] ∧
    storeCalls (handleJoin orphan jsonCodec (sampleJoin sampleWire) 0).1 =
      [Event.Join "n2" "localhost:8081" "localhost:9001" none] ∧
    ∀ r ∈ responses (handleJoin orphan jsonCodec (sampleJoin sampleWire) 0).1, r.code ≠ 400 :=
  ⟨⟨rfl, rfl, by decide, rfl⟩,
   join_agrees_with_handleJoin sampleHost orphan jsonCodec "localhost:8080"
     "localhost:8081" "localhost:9001" "n2" 0 (sampleJoin sampleWire) 0 sampleWire
     sampleWireMap rfl rfl (by decide) rfl⟩

/-- The claim of C6 as stated, for all strings, fails on a node ID that is not
valid UTF-8. A node with the ID `6e ff 32` posts a body in which the ID reads
`6e ef bf bd 32`; the member that receives it passes every check and calls
`Join` with that ID, which is not the ID the client has. -/
theorem join_handleJoin_disagree_on_invalid_utf8 :
    (join sampleHost jsonCodec "localhost:8080" "localhost:8081" "localhost:9001"
        "n\xff2" 0).1 =
      [BootEvent.Post "http://localhost:8080/join" "application-type/json" coercedWire none] ∧
    storeCalls (handleJoin orphan jsonCodec (sampleJoin coercedWire) 0).1 =
      [Event.Join "n\xef\xbf\xbd2" "localhost:8081" "localhost:9001" none] ∧
    storeCalls (handleJoin orphan jsonCodec (sampleJoin coercedWire) 0).1 ≠
      [Event.Join "n\xff2" "localhost:8081" "localhost:9001"
        (orphan.Join "n\xff2" "localhost:8081" "localhost:9001" 0).1] :=
  ⟨by decide, by decide, by decide⟩

/-! ### Node bootstrap -/

/-- C8: in `initRaft`, when `Open` succeeded and the join step, if there was
one, did not fail, the result is nil when `SetMeta(nodeID, httpAddr)` returns
nil or `ErrNotLeader`, and is exactly the error of `SetMeta` when that is any
other error. Here `s₁` is the state `Open` leaves, `s₂` the state after the
join step and `s₃` the state after the two waits, where `SetMeta` runs. -/
theorem initRaft_setMeta_notLeader_benign (st : Store σ) (host : Host σ β) (codec : Codec β)
    (f : Flags) (s s₁ s₂ s₃ : σ)
    (hopen : st.Open (decide (f.joinAddr = "")) f.nodeID s = (none, s₁))
    (hjoin : (f.joinAddr = "" ∧ s₂ = s₁) ∨
      (f.joinAddr ≠ "" ∧
        ∃ t, join host codec f.joinAddr f.httpAddr f.raftAddr f.nodeID s₁ = (t, none, s₂)))
    (hwait : s₃ = st.WaitForApplied (120 * Second) (st.WaitForLeader (120 * Second) s₂)) :
    ((st.SetMeta f.nodeID f.httpAddr s₃).1 = none ∨
        (st.SetMeta f.nodeID f.httpAddr s₃).1 = some Error.ErrNotLeader →
      (initRaft st host codec f s).2.1 = none) ∧
    (∀ e, (st.SetMeta f.nodeID f.httpAddr s₃).1 = some e → e ≠ Error.ErrNotLeader →
      (initRaft st host codec f s).2.1 = some e) := by
  subst hwait
  rcases hjoin with ⟨hj, rfl⟩ | ⟨hj, t, hjn⟩
  · have ho : st.Open true f.nodeID s = (none, s₂) := by simpa [hj] using hopen
    constructor
    · rintro (h | h) <;> simp [initRaft, ho, hj, h]
    · intro e h he
      simp [initRaft, ho, hj, h, he]
  · have ho : st.Open false f.nodeID s = (none, s₁) := by simpa [hj] using hopen
    constructor
    · rintro (h | h) <;> simp [initRaft, ho, hj, hjn, h]
    · intro e h he
      simp [initRaft, ho, hj, hjn, h, he]

/-- A joining node whose `SetMeta` returns `ErrNotLeader`, and a standalone
node whose `SetMeta` times out. -/
theorem initRaft_setMeta_notLeader_benign_witness :
    (((sampleStore "n2" Error.ErrNotLeader "").Open (decide (sampleJoinFlags.joinAddr = ""))
          sampleJoinFlags.nodeID 0 = (none, 1) ∧
        (sampleJoinFlags.joinAddr ≠ "" ∧
          ∃ t, join sampleHost sampleCodec sampleJoinFlags.joinAddr sampleJoinFlags.httpAddr
            sampleJoinFlags.raftAddr sampleJoinFlags.nodeID 1 = (t, none, 1)) ∧
        ((sampleStore "n2" Error.ErrNotLeader "").SetMeta sampleJoinFlags.nodeID
          sampleJoinFlags.httpAddr 1).1 = some Error.ErrNotLeader) ∧
      (initRaft (sampleStore "n2" Error.ErrNotLeader "") sampleHost sampleCodec
        sampleJoinFlags 0).2.1 = none) ∧
    (((sampleStore "n1" (Error.other "timeout") "").Open (decide (sampleFlags.joinAddr = ""))
          sampleFlags.nodeID 0 = (none, 1) ∧
        sampleFlags.joinAddr = "" ∧
        ((sampleStore "n1" (Error.other "timeout") "").SetMeta sampleFlags.nodeID
          sampleFlags.httpAddr 1).1 = some (Error.other "timeout") ∧
        Error.other "timeout" ≠ Error.ErrNotLeader) ∧
      (initRaft (sampleStore "n1" (Error.other "timeout") "") sampleHost sampleCodec
        sampleFlags 0).2.1 = some (Error.other "timeout")) :=
  ⟨⟨⟨rfl, ⟨by decide, _, rfl⟩, rfl⟩,
    (initRaft_setMeta_notLeader_benign (sampleStore "n2" Error.ErrNotLeader "") sampleHost
      sampleCodec sampleJoinFlags 0 1 1 1 rfl (Or.inr ⟨by decide, _, rfl⟩) rfl).1
      (Or.inr rfl)⟩,
   ⟨⟨rfl, rfl, rfl, by decide⟩,
    (initRaft_setMeta_notLeader_benign (sampleStore "n1" (Error.other "timeout") "") sampleHost
      sampleCodec sampleFlags 0 1 1 1 rfl (Or.inl ⟨rfl, rfl⟩) rfl).2
      (Error.other "timeout") rfl (by decide)⟩⟩

/-- C7, as the code has it: when `Open` fails with `e`, `initRaft` returns
`e`, and `main`, which does not look at that value, goes on to create and
start the HTTP service. -/
theorem main_serves_after_open_failure (st : Store σ) (host : Host σ β) (codec : Codec β)
    (f : Flags) (s : σ) (e : Error)
    (hparam : (resolveParam host f s).2.1 = false)
    (hopen : (st.Open (decide (f.joinAddr = "")) f.nodeID (resolveParam host f s).2.2).1
      = some e) :
    (initRaft st host codec f (resolveParam host f s).2.2).2.1 = some e ∧
    ∃ pre err, (main st host codec f s).1 =
      pre ++ [BootEvent.serviceNew f.httpAddr, BootEvent.serviceStart err] := by
  constructor
  · simp [initRaft, hopen]
  · exact ⟨_, _, by simp only [main, hparam]; rfl⟩

/-- The whole trace of `main` on a node whose store fails to open. -/
theorem main_serves_after_open_failure_witness :
    ((resolveParam sampleHost sampleFlags 0).2.1 = false ∧
      (brokenDisk.Open (decide (sampleFlags.joinAddr = "")) sampleFlags.nodeID
        (resolveParam sampleHost sampleFlags 0).2.2).1 = some (Error.other "disk failure")) ∧
    (initRaft brokenDisk sampleHost sampleCodec sampleFlags
      (resolveParam sampleHost sampleFlags 0).2.2).2.1 = some (Error.other "disk failure") ∧
    (main brokenDisk sampleHost sampleCodec sampleFlags 0).1 =
      [BootEvent.MkdirAll "~/data/go-config-center" 448 none,
        BootEvent.storeNew "localhost:9000" "~/data/go-config-center",
        BootEvent.Open true "n1" (some (Error.other "disk failure")),
        BootEvent.log "failed to open store: disk failure",
        BootEvent.serviceNew "localhost:8080", BootEvent.serviceStart none] :=
  ⟨⟨by decide, by decide⟩,
   (main_serves_after_open_failure brokenDisk sampleHost sampleCodec sampleFlags 0
      (Error.other "disk failure") (by decide) (by decide)).1,
   by decide⟩

end Theorems

end ConfigCenter
